import Mathlib

/-!
# Verification of the dashboarder-go IoT telemetry pipeline

Shallow embedding of the message-processing pipeline of the repository:
the Ingestor's `ProcessMessage` (topic lookup, float decoding, range
validation), the Persister's `SaveMeasurement` dual write, the metadata
cache refresh `LoadSensors`, the Read API's `GetAllSensors` /
`GetHistory` / `handleGetHistory`, the `sensor_data` table schema, and
the Log Collector's per-message file append.

Floating-point values (`float64` in Go) are modelled by `GoFloat`:
either NaN, a signed infinity, or an exact rational. All decimal values
appearing in the claims are exactly representable, and the IEEE-754
comparison semantics that matter here (every comparison with NaN is
false) is captured by `GoFloat.lt`/`le`/`gt`/`ge`/`beq`.
-/

namespace Dashboarder

/-- Structural decidable equality for `Except`, so that concrete runs of
the embedded operations can be checked by `decide`. -/
instance {ε α : Type} [DecidableEq ε] [DecidableEq α] : DecidableEq (Except ε α)
  | .ok a, .ok b =>
    if h : a = b then .isTrue (by rw [h]) else .isFalse (by simp [h])
  | .ok _, .error _ => .isFalse (by simp)
  | .error _, .ok _ => .isFalse (by simp)
  | .error a, .error b =>
    if h : a = b then .isTrue (by rw [h]) else .isFalse (by simp [h])

/-- Model of a Go `float64` value: NaN, infinity (the `Bool` is the sign,
`true` = negative), or a finite value modelled as an exact rational. -/
inductive GoFloat where
  | nan : GoFloat
  | inf : Bool → GoFloat
  | num : Rat → GoFloat
deriving DecidableEq, Repr

/-- IEEE-754 `==`: any comparison involving NaN is false. -/
def GoFloat.beq : GoFloat → GoFloat → Bool
  | .nan, _ => false
  | _, .nan => false
  | .inf a, .inf b => a == b
  | .num a, .num b => decide (a = b)
  | _, _ => false

/-- IEEE-754 `<`: any comparison involving NaN is false;
negative infinity is below everything else. -/
def GoFloat.lt : GoFloat → GoFloat → Bool
  | .nan, _ => false
  | _, .nan => false
  | .inf a, .inf b => a && !b
  | .inf a, .num _ => a
  | .num _, .inf b => !b
  | .num a, .num b => decide (a < b)

/-- IEEE-754 `>`. -/
def GoFloat.gt (x y : GoFloat) : Bool := GoFloat.lt y x

/-- IEEE-754 `<=`. -/
def GoFloat.le (x y : GoFloat) : Bool := GoFloat.lt x y || GoFloat.beq x y

/-- IEEE-754 `>=`. -/
def GoFloat.ge (x y : GoFloat) : Bool := GoFloat.le y x

/-- For non-NaN operands `¬(x < y)` coincides with `y ≤ x`;
this fails when either operand is NaN, which is exactly the gap the
Ingestor's range check leaves open. -/
theorem GoFloat.lt_eq_false_iff_le (x y : GoFloat) (hx : x ≠ .nan) (hy : y ≠ .nan) :
    GoFloat.lt x y = false ↔ GoFloat.le y x = true := by
  cases x with
  | nan => exact absurd rfl hx
  | inf a =>
    cases y with
    | nan => exact absurd rfl hy
    | inf b => cases a <;> cases b <;> simp [GoFloat.lt, GoFloat.le, GoFloat.beq]
    | num b => cases a <;> simp [GoFloat.lt, GoFloat.le, GoFloat.beq]
  | num a =>
    cases y with
    | nan => exact absurd rfl hy
    | inf b => cases b <;> simp [GoFloat.lt, GoFloat.le, GoFloat.beq]
    | num b =>
      simp only [GoFloat.lt, GoFloat.le, GoFloat.beq, Bool.or_eq_true,
        decide_eq_false_iff_not, decide_eq_true_eq]
      constructor
      · intro h
        exact le_iff_lt_or_eq.mp (not_lt.mp h)
      · intro h
        exact not_lt.mpr (le_iff_lt_or_eq.mpr h)

/-! ## Embedding of `strconv.ParseFloat` (decimal forms)

Go's `strconv.ParseFloat` recognizes, ignoring case, `NaN` and optionally
signed `Inf`/`Infinity`, and otherwise a decimal mantissa (digits with an
optional dot, at least one digit overall) with an optional signed decimal
exponent; the whole input must be consumed and no surrounding whitespace
is skipped. Hexadecimal float literals and digit-separating underscores
are not modelled (no claim exercises them). Values are kept exact as
rationals rather than rounded to the nearest binary64. -/

/-- Decimal value of a digit list, most significant first. -/
def digitsVal (ds : List Char) : Nat :=
  ds.foldl (fun a c => a * 10 + (c.toNat - 48)) 0

/-- Value of a mantissa `ip.fp` scaled by `10 ^ ex`, built with `mkRat`
over integer arithmetic so that it evaluates inside the kernel. -/
def decValue (ip fp : List Char) (ex : Int) : Rat :=
  let m : Nat := digitsVal (ip ++ fp)
  let e : Int := ex - fp.length
  if 0 ≤ e then mkRat (m * 10 ^ e.toNat) 1
  else mkRat m (10 ^ (-e).toNat)

/-- Parse a decimal exponent: optional sign then at least one digit,
consuming the whole remaining input. -/
def parseExp (cs : List Char) : Option Int :=
  let (sgn, rest) : Int × List Char :=
    match cs with
    | '+' :: r => (1, r)
    | '-' :: r => (-1, r)
    | r => (1, r)
  let (ds, rest2) := rest.span (·.isDigit)
  if ds.isEmpty then none
  else if rest2.isEmpty then some (sgn * (digitsVal ds : Int))
  else none

/-- Parse an unsigned decimal mantissa with optional fraction and optional
exponent, consuming the whole input. -/
def parseMantissa (cs : List Char) : Option Rat :=
  let (ip, r1) := cs.span (·.isDigit)
  match r1 with
  | '.' :: r2 =>
    let (fp, r3) := r2.span (·.isDigit)
    if ip.isEmpty && fp.isEmpty then none
    else
      match r3 with
      | [] => some (decValue ip fp 0)
      | 'e' :: r4 => (parseExp r4).map (decValue ip fp)
      | 'E' :: r4 => (parseExp r4).map (decValue ip fp)
      | _ => none
  | 'e' :: r4 => if ip.isEmpty then none else (parseExp r4).map (decValue ip [])
  | 'E' :: r4 => if ip.isEmpty then none else (parseExp r4).map (decValue ip [])
  | [] => if ip.isEmpty then none else some (decValue ip [] 0)
  | _ => none

/-- Lower-case a string character-wise (ASCII is all that matters here). -/
def lowerStr (s : String) : String :=
  String.mk (s.toList.map Char.toLower)

/-- Embedding of `strconv.ParseFloat(s, 64)`: `none` is Go's error case.
`NaN` takes no sign; `Inf`/`Infinity` take an optional sign; otherwise an
optionally signed decimal mantissa. The exact input must match: no
whitespace is trimmed anywhere. -/
def parseFloat (s : String) : Option GoFloat :=
  let l := lowerStr s
  if l = "nan" then some .nan
  else if l = "inf" || l = "+inf" || l = "infinity" || l = "+infinity" then
    some (.inf false)
  else if l = "-inf" || l = "-infinity" then some (.inf true)
  else
    match s.toList with
    | '+' :: cs => (parseMantissa cs).map .num
    | '-' :: cs => (parseMantissa cs).map (fun q => .num (-q))
    | cs => (parseMantissa cs).map .num

/-! ## Ingestor: metadata cache and `ProcessMessage`
(`src/services/sensor-ingestor/metadata.go`, `ProcessMessage` from the
ingestor source kept alongside `src/services/log-collector/main.go`). -/

/-- Cached record from `sensors` joined with `sensor_types`
(`SensorMetadata` in `metadata.go`): the DB columns `min_value` and
`max_value` are nullable, hence `Option`. -/
structure SensorMetadata where
  ID : Int
  MinValue : Option GoFloat
  MaxValue : Option GoFloat
deriving DecidableEq, Repr

/-- The metadata cache: a finite map from MQTT topic to `SensorMetadata`,
modelled as an association list (first binding wins, and `cacheInsert`
removes the previous binding, matching Go map overwrite). -/
abbrev MetaCache := List (String × SensorMetadata)

/-- Go map assignment `cache[topic] = meta`. -/
def cacheInsert (c : MetaCache) (t : String) (m : SensorMetadata) : MetaCache :=
  (t, m) :: c.filter (fun p => !(p.1 == t))

/-- `MetadataService.GetMetadata`: map lookup returning `(meta, ok)`. -/
def GetMetadata (c : MetaCache) (topic : String) : Option SensorMetadata :=
  c.lookup topic

/-- Normalized in-flight event (`SensorEvent` in
`src/services/sensor-ingestor/types.go`); the timestamp is a UTC instant
modelled as an integer. -/
structure SensorEvent where
  SensorID : Int
  Value : GoFloat
  Timestamp : Int
deriving DecidableEq, Repr

/-- Failure taxonomy of the Ingestor's processing step (the Go code
returns `fmt.Errorf` values for the first three and `json.Marshal`'s
error for the last; only the reason category is load-bearing). -/
inductive ProcFail where
  | UnknownTopic
  | MalformedValue
  | OutOfRange
  | MarshalError
deriving DecidableEq, Repr

/-- `meta.MinValue != nil && val < *meta.MinValue` (the MIN check). -/
def belowMin (meta : SensorMetadata) (val : GoFloat) : Bool :=
  match meta.MinValue with
  | some lo => GoFloat.lt val lo
  | none => false

/-- `meta.MaxValue != nil && val > *meta.MaxValue` (the MAX check). -/
def aboveMax (meta : SensorMetadata) (val : GoFloat) : Bool :=
  match meta.MaxValue with
  | some hi => GoFloat.gt val hi
  | none => false

/-- Whether `encoding/json` can encode the value: `json.Marshal` rejects
NaN and ±Inf with an `UnsupportedValueError`; every finite `float64`
encodes. The event's other fields (an `int64` and a `time.Time`) always
encode, so the marshal of a `SensorEvent` fails exactly when its value
is not marshalable. -/
def jsonMarshalable : GoFloat → Bool
  | .nan => false
  | .inf _ => false
  | .num _ => true

/-- Embedding of the Ingestor's `ProcessMessage(topic, payload, metaService)`:
cache lookup, then `strconv.ParseFloat` on the whole payload, then the two
strict bound checks, then the normalized event with `time.Now().UTC()`
passed in as `now`, returned through the final `return json.Marshal(event)`
— which fails (and so the step returns an error and no event) exactly when
the value is NaN or ±Inf. The successful JSON bytes are modelled by the
event itself. -/
def ProcessMessage (cache : MetaCache) (topic payload : String) (now : Int) :
    Except ProcFail SensorEvent :=
  match GetMetadata cache topic with
  | none => .error .UnknownTopic
  | some meta =>
    match parseFloat payload with
    | none => .error .MalformedValue
    | some val =>
      if belowMin meta val then .error .OutOfRange
      else if aboveMax meta val then .error .OutOfRange
      else if jsonMarshalable val then .ok ⟨meta.ID, val, now⟩
      else .error .MarshalError

/-- Once the topic is resolved and the payload parsed to a marshalable
(finite) value, the processing step succeeds exactly when both bound
checks pass, and its only other outcome is an `OutOfRange` failure. -/
theorem ProcessMessage_ok_iff (cache : MetaCache) (topic payload : String)
    (now : Int) (meta : SensorMetadata) (v : GoFloat)
    (hmeta : GetMetadata cache topic = some meta)
    (hv : parseFloat payload = some v)
    (hfin : jsonMarshalable v = true) :
    ((∃ ev, ProcessMessage cache topic payload now = .ok ev) ↔
      (belowMin meta v = false ∧ aboveMax meta v = false))
    ∧ (ProcessMessage cache topic payload now = .ok ⟨meta.ID, v, now⟩ ∨
       ProcessMessage cache topic payload now = .error .OutOfRange) := by
  simp only [ProcessMessage, hmeta, hv]
  cases hb : belowMin meta v <;> cases ha : aboveMax meta v <;>
    simp [hb, ha, hfin]

/-- C1 (amended): for payloads that parse to a finite (marshalable)
value, with any present bounds non-NaN, an event is produced iff the
value is at least any present lower bound and at most any present upper
bound; otherwise the step fails with `OutOfRange`. (The original claim's
"if and only if" fails when the payload parses to NaN or ±Inf and every
bound check passes: the final `json.Marshal` then errors and no event is
produced, see the counterexample.) -/
theorem C1_bounds_amended (cache : MetaCache) (topic payload : String)
    (now : Int) (meta : SensorMetadata) (v : GoFloat)
    (hmeta : GetMetadata cache topic = some meta)
    (hv : parseFloat payload = some v)
    (hfin : jsonMarshalable v = true)
    (hlo : ∀ lo, meta.MinValue = some lo → lo ≠ .nan)
    (hhi : ∀ hi, meta.MaxValue = some hi → hi ≠ .nan) :
    ((∃ ev, ProcessMessage cache topic payload now = .ok ev) ↔
      ((∀ lo, meta.MinValue = some lo → GoFloat.ge v lo = true) ∧
       (∀ hi, meta.MaxValue = some hi → GoFloat.le v hi = true)))
    ∧ (ProcessMessage cache topic payload now = .ok ⟨meta.ID, v, now⟩ ∨
       ProcessMessage cache topic payload now = .error .OutOfRange) := by
  have hvn : v ≠ .nan := by
    intro h
    subst h
    simp [jsonMarshalable] at hfin
  have hbm : belowMin meta v = false ↔
      (∀ lo, meta.MinValue = some lo → GoFloat.ge v lo = true) := by
    cases hmv : meta.MinValue with
    | none => simp [belowMin, hmv]
    | some lo =>
      simp only [belowMin, hmv, Option.some.injEq, GoFloat.ge]
      rw [GoFloat.lt_eq_false_iff_le v lo hvn (hlo lo hmv)]
      constructor
      · intro h lo2 heq
        cases heq
        exact h
      · intro h
        exact h lo rfl
  have ham : aboveMax meta v = false ↔
      (∀ hi, meta.MaxValue = some hi → GoFloat.le v hi = true) := by
    cases hmv : meta.MaxValue with
    | none => simp [aboveMax, hmv]
    | some hi =>
      simp only [aboveMax, hmv, Option.some.injEq, GoFloat.gt]
      rw [GoFloat.lt_eq_false_iff_le hi v (hhi hi hmv) hvn]
      constructor
      · intro h hi2 heq
        cases heq
        exact h
      · intro h
        exact h hi rfl
  have hmain :=
    ProcessMessage_ok_iff cache topic payload now meta v hmeta hv hfin
  exact ⟨hmain.1.trans (and_congr hbm ham), hmain.2⟩

/-- Witness for C1 (amended): the boundary value 80 with bounds
`[-30, 80]` is accepted — an event is produced. -/
theorem C1_bounds_amended_witness :
    ∃ ev, ProcessMessage [("t", ⟨7, some (.num (-30)), some (.num 80)⟩)]
      "t" "80" 0 = .ok ev :=
  (C1_bounds_amended _ _ _ 0 ⟨7, some (.num (-30)), some (.num 80)⟩ (.num 80)
      (by decide) (by decide) (by decide)
      (by intro lo heq; cases heq; decide)
      (by intro hi heq; cases heq; decide)).1.mpr
    ⟨by intro lo heq; cases heq; decide, by intro hi heq; cases heq; decide⟩

/-- C1 counterexample: on a cache entry with BOTH bounds absent, the
payload `"NaN"` parses to NaN, so the claim's right-hand side
`(lo absent ∨ v ≥ lo) ∧ (hi absent ∨ v ≤ hi)` holds vacuously and the
claim demands a normalized event — but the step returns the
`json.Marshal` error (`json: unsupported value: NaN`) and produces no
event, so the claimed "if and only if" is false at this input. -/
theorem C1_counterexample :
    parseFloat "NaN" = some .nan
    ∧ GetMetadata [("t", ⟨1, none, none⟩)] "t" = some ⟨1, none, none⟩
    ∧ ProcessMessage [("t", ⟨1, none, none⟩)] "t" "NaN" 0 =
        .error .MarshalError := by decide

/-- C2 (amended): for a known topic the processing step decodes the exact
whole payload with no trimming: it fails with `MalformedValue` precisely
when the payload text does not parse as a decimal floating-point number,
and a valid number surrounded by whitespace (`" 1.5"`, `"1.5 "`) is such
a failure, while the exact text `"1.5"` decodes successfully. -/
theorem C2_no_trim_amended (cache : MetaCache) (topic payload : String)
    (now : Int) (meta : SensorMetadata)
    (hmeta : GetMetadata cache topic = some meta) :
    (ProcessMessage cache topic payload now = .error .MalformedValue ↔
      parseFloat payload = none)
    ∧ parseFloat " 1.5" = none
    ∧ parseFloat "1.5 " = none
    ∧ parseFloat "1.5" = some (.num (mkRat 3 2)) := by
  refine ⟨?_, by decide, by decide, by decide⟩
  simp only [ProcessMessage, hmeta]
  cases hp : parseFloat payload with
  | none => simp
  | some val =>
    cases hb : belowMin meta val <;> cases ha : aboveMax meta val <;>
      cases hm : jsonMarshalable val <;> simp [hb, ha, hm]

/-- Witness for C2 (amended): an unparseable payload on a known topic
fails with `MalformedValue`. -/
theorem C2_no_trim_amended_witness :
    ProcessMessage [("t", ⟨1, none, none⟩)] "t" "NaN-ish" 0 =
      .error .MalformedValue :=
  (C2_no_trim_amended _ _ _ 0 ⟨1, none, none⟩ (by decide)).1.mpr (by decide)

/-- C2 counterexample: the payload `" 1.5"` — a valid decimal number
surrounded by leading whitespace — is NOT decoded successfully: the code
passes the payload to `strconv.ParseFloat` untrimmed and the message
fails with `MalformedValue`, although the trimmed text `"1.5"` is a valid
decimal number. -/
theorem C2_counterexample :
    ProcessMessage [("t", ⟨1, none, none⟩)] "t" " 1.5" 0 =
      .error .MalformedValue
    ∧ parseFloat " 1.5" = none
    ∧ parseFloat "1.5" = some (.num (mkRat 3 2)) := by decide

/-- C3: a message whose topic is not in the metadata cache fails with
`UnknownTopic`, for every payload — the lookup precedes payload
decoding, so even an unparseable payload yields `UnknownTopic`. -/
theorem C3_unknown_topic (cache : MetaCache) (topic payload : String)
    (now : Int) (h : GetMetadata cache topic = none) :
    ProcessMessage cache topic payload now = .error .UnknownTopic := by
  simp [ProcessMessage, h]

/-- Witness for C3: a topic absent from a non-empty cache is rejected
with `UnknownTopic` even though its payload is a valid number. -/
theorem C3_unknown_topic_witness :
    ProcessMessage [("known", ⟨1, none, none⟩)] "/msh/unregistered/foo"
      "10.0" 0 = .error .UnknownTopic :=
  C3_unknown_topic _ _ _ 0 (by decide)

/-- C10 counterexample: the claim asserts the processing step SUCCEEDS
on `"NaN"` and produces a NaN event. The payload does parse to NaN and
both strict bound comparisons are indeed false (the range check is
bypassed), but the step does not succeed: the final `json.Marshal`
rejects NaN and the step returns its error, producing no event. -/
theorem C10_counterexample :
    parseFloat "NaN" = some .nan
    ∧ GoFloat.lt .nan (.num (-30)) = false
    ∧ GoFloat.gt .nan (.num 80) = false
    ∧ jsonMarshalable .nan = false
    ∧ ProcessMessage
        [("/msh/kitchen/temp", ⟨7, some (.num (-30)), some (.num 80)⟩)]
        "/msh/kitchen/temp" "NaN" 0 = .error .MarshalError := by decide

/-- C10 (amended): for every known topic whose cache entry has both a
lower and an upper bound, the payload `"NaN"` parses to NaN and both
bound comparisons (`v < min`, `v > max`) evaluate to false, so the range
check is bypassed — the step fails with neither `OutOfRange` nor
`MalformedValue` — but no normalized event is produced either: the final
`json.Marshal` rejects NaN and the step returns a marshal error. -/
theorem C10_nan_amended (cache : MetaCache) (topic : String) (now : Int)
    (meta : SensorMetadata) (lo hi : GoFloat)
    (hmeta : GetMetadata cache topic = some meta)
    (hlo : meta.MinValue = some lo)
    (hhi : meta.MaxValue = some hi) :
    parseFloat "NaN" = some .nan
    ∧ belowMin meta .nan = false
    ∧ aboveMax meta .nan = false
    ∧ ProcessMessage cache topic "NaN" now = .error .MarshalError
    ∧ ProcessMessage cache topic "NaN" now ≠ .error .OutOfRange
    ∧ ProcessMessage cache topic "NaN" now ≠ .error .MalformedValue := by
  have hbm : belowMin meta .nan = false := by
    simp [belowMin, hlo, GoFloat.lt]
  have ham : aboveMax meta .nan = false := by
    cases hi <;> simp [aboveMax, hhi, GoFloat.gt, GoFloat.lt]
  have hrun : ProcessMessage cache topic "NaN" now = .error .MarshalError := by
    simp [ProcessMessage, hmeta, show parseFloat "NaN" = some .nan by decide,
      hbm, ham, jsonMarshalable]
  refine ⟨by decide, hbm, ham, hrun, ?_, ?_⟩
  · rw [hrun]
    simp
  · rw [hrun]
    simp

/-- Witness for C10 (amended): the happy-path sensor with bounds
`[-30, 80]` fed `"NaN"` bypasses the range check but yields the marshal
error, not an event. -/
theorem C10_nan_amended_witness :
    ProcessMessage
        [("/msh/kitchen/temp", ⟨7, some (.num (-30)), some (.num 80)⟩)]
        "/msh/kitchen/temp" "NaN" 0 = .error .MarshalError
    ∧ belowMin ⟨7, some (.num (-30)), some (.num 80)⟩ .nan = false :=
  ⟨(C10_nan_amended
      [("/msh/kitchen/temp", ⟨7, some (.num (-30)), some (.num 80)⟩)]
      "/msh/kitchen/temp" 0 ⟨7, some (.num (-30)), some (.num 80)⟩
      (.num (-30)) (.num 80) (by decide) rfl rfl).2.2.2.1,
   (C10_nan_amended
      [("/msh/kitchen/temp", ⟨7, some (.num (-30)), some (.num 80)⟩)]
      "/msh/kitchen/temp" 0 ⟨7, some (.num (-30)), some (.num 80)⟩
      (.num (-30)) (.num 80) (by decide) rfl rfl).2.1⟩

/-! ## Read API: `GetHistory` and `handleGetHistory`
(`src/services/home-api/service.go`, `src/services/home-api/api.go`). -/

/-- Unit table of Go's `time.ParseDuration`: nanoseconds per unit.
There is no day unit — `"7d"` is not a valid Go duration. -/
def durUnit : List Char → Option Nat
  | ['n', 's'] => some 1
  | ['u', 's'] => some 1000
  | ['µ', 's'] => some 1000
  | ['μ', 's'] => some 1000
  | ['m', 's'] => some 1000000
  | ['s'] => some 1000000000
  | ['m'] => some 60000000000
  | ['h'] => some 3600000000000
  | _ => none

/-- One pass of `time.ParseDuration`'s term loop: each term is digits
(with an optional fraction) followed by a known unit. The fractional
contribution is truncated to integer nanoseconds (Go accumulates it in
binary floating point; the difference is irrelevant at the granularity
any claim exercises). The fuel argument only bounds recursion depth; one
character of input is consumed per unit of fuel at minimum. -/
def parseDurLoop : Nat → List Char → Nat → Option Nat
  | _, [], acc => some acc
  | 0, _ :: _, _ => none
  | Nat.succ fuel, cs, acc =>
    let (ip, r1) := cs.span (·.isDigit)
    let (fp, r2) : List Char × List Char :=
      match r1 with
      | '.' :: r => r.span (·.isDigit)
      | _ => ([], r1)
    if ip.isEmpty && fp.isEmpty then none
    else
      let (u, r3) := r2.span (fun c => !(c.isDigit || c == '.'))
      match durUnit u with
      | none => none
      | some mult =>
        let term := digitsVal ip * mult + digitsVal fp * mult / 10 ^ fp.length
        parseDurLoop fuel r3 (acc + term)

/-- Embedding of Go's `time.ParseDuration`: optional sign, the special
case `"0"`, then one or more number-unit terms; `none` is Go's error.
Overflow checks on the int64 result are not modelled. -/
def parseDuration (s : String) : Option Int :=
  let (neg, cs) : Bool × List Char :=
    match s.toList with
    | '-' :: r => (true, r)
    | '+' :: r => (false, r)
    | r => (false, r)
  match cs with
  | [] => none
  | ['0'] => some 0
  | _ =>
    (parseDurLoop cs.length cs 0).map
      (fun v => if neg then -(v : Int) else (v : Int))

/-- Embedding of `strconv.ParseInt(s, 10, 64)`: optional sign, at least
one digit, nothing else, within the int64 range. -/
def parseGoInt (s : String) : Option Int :=
  let (neg, cs) : Bool × List Char :=
    match s.toList with
    | '-' :: r => (true, r)
    | '+' :: r => (false, r)
    | r => (false, r)
  if cs.isEmpty then none
  else if cs.all (·.isDigit) then
    let n := digitsVal cs
    if neg then
      if n ≤ 9223372036854775808 then some (-(n : Int)) else none
    else
      if n ≤ 9223372036854775807 then some (n : Int) else none
  else none

/-- Read-side history record (`HistoryPoint` in `types.go`). -/
structure HistoryPoint where
  t : Int
  v : GoFloat
deriving DecidableEq, Repr

/-- `Service.GetHistory`: parse the window spec with `time.ParseDuration`
(failure is the "invalid duration format" error), then run the windowed
query; the query is an external repository call whose outcome is passed
in as `dbResult`. -/
def GetHistory (durationStr : String)
    (dbResult : Except String (List HistoryPoint)) :
    Except String (List HistoryPoint) :=
  match parseDuration durationStr with
  | none => .error "invalid duration format"
  | some _ =>
    match dbResult with
    | .error e => .error ("history query failed: " ++ e)
    | .ok pts => .ok pts

/-- `APIHandler.handleGetHistory`: a non-integer `{id}` answers 400; a
missing `range` defaults to `"24h"`; ANY error from `GetHistory`
(including a duration parse failure) answers 500; success answers 200. -/
def handleGetHistory (idStr rangeParam : String)
    (dbResult : Except String (List HistoryPoint)) : Nat :=
  match parseGoInt idStr with
  | none => 400
  | some _ =>
    let rp := if rangeParam = "" then "24h" else rangeParam
    match GetHistory rp dbResult with
    | .error _ => 500
    | .ok _ => 200

/-- C4 counterexample: `"7d"` does not parse as a Go duration (there is
no day unit), and the response for `range=7d` has status 500, not the
claimed 400. -/
theorem C4_counterexample :
    parseDuration "7d" = none
    ∧ handleGetHistory "1" "7d" (.ok []) = 500
    ∧ ¬ handleGetHistory "1" "7d" (.ok []) = 400 := by decide

/-- C4 (amended): `GetHistory` parses its windowSpec with Go's
`time.ParseDuration`, which accepts `"1h"`, `"24h"` and `"30m"` but not
`"7d"`; for every windowSpec that fails to parse (with a well-formed
sensor id), the HTTP response has status 500 — the handler maps every
`GetHistory` error to InternalError, never to 400. -/
theorem C4_duration_amended (idStr rangeParam : String)
    (dbResult : Except String (List HistoryPoint)) (n : Int)
    (hid : parseGoInt idStr = some n)
    (hne : rangeParam ≠ "")
    (hdur : parseDuration rangeParam = none) :
    handleGetHistory idStr rangeParam dbResult = 500
    ∧ parseDuration "1h" = some 3600000000000
    ∧ parseDuration "24h" = some 86400000000000
    ∧ parseDuration "30m" = some 1800000000000
    ∧ parseDuration "7d" = none := by
  refine ⟨?_, by decide, by decide, by decide, by decide⟩
  simp [handleGetHistory, hid, hne, GetHistory, hdur]

/-- Witness for C4 (amended): `range=7d` with a valid id answers 500. -/
theorem C4_duration_amended_witness :
    handleGetHistory "1" "7d" (Except.ok []) = 500 :=
  (C4_duration_amended "1" "7d" (.ok []) 1 (by decide) (by decide)
    (by decide)).1

/-! ## Persister: `SaveMeasurement`
(`src/services/data-persister/repository.go`). -/

/-- Nanoseconds in one `time.Hour`. -/
def goHourNs : Nat := 3600000000000

/-- The 24-hour lease (`24*time.Hour`) used for the last-value key. -/
def lease24h : Nat := 24 * goHourNs

/-- A time-series row `(timestamp, sensor_id, value)`. -/
abbrev TsRow := Int × Int × GoFloat

/-- The key-value store: key to (value, lease in nanoseconds). -/
abbrev KvStore := List (String × GoFloat × Nat)

/-- The Persister's two stores: the append-only time-series rows and the
last-value key-value store. -/
structure PersistState where
  tsRows : List TsRow
  kv : KvStore
deriving DecidableEq, Repr

/-- `redis.Set`: overwrite the binding for a key. -/
def kvSet (kv : KvStore) (k : String) (v : GoFloat) (lease : Nat) :
    KvStore :=
  (k, v, lease) :: kv.filter (fun p => !(p.1 == k))

/-- The key `fmt.Sprintf("sensor:last:%d", event.SensorID)`. -/
def lastKey (sid : Int) : String := "sensor:last:" ++ toString sid

/-- Embedding of `Repository.SaveMeasurement`: first the time-series
INSERT, then (only if it succeeded) the key-value SET with a 24-hour
lease. The two external calls' outcomes are passed in as `tsResult` and
`kvResult`; the returned pair is (Go error return, resulting store
state). -/
def SaveMeasurement (st : PersistState) (ev : SensorEvent)
    (tsResult kvResult : Except String Unit) :
    Except String Unit × PersistState :=
  match tsResult with
  | .error e => (.error ("chyba insertu do PG: " ++ e), st)
  | .ok _ =>
    let st1 : PersistState :=
      ⟨st.tsRows ++ [(ev.Timestamp, ev.SensorID, ev.Value)], st.kv⟩
    match kvResult with
    | .error e => (.error ("chyba update Valkey: " ++ e), st1)
    | .ok _ =>
      (.ok (), ⟨st1.tsRows, kvSet st1.kv (lastKey ev.SensorID) ev.Value lease24h⟩)

/-- C5: a time-series failure fails the whole operation and leaves both
stores untouched (no key-value write); a key-value failure after a
successful append is returned as an error but the appended row stays and
the key-value store is unchanged; when the append succeeds and the set
succeeds, the row is appended and `sensor:last:<id>` is overwritten with
the event's value under the 24-hour lease. -/
theorem C5_dual_write (st : PersistState) (ev : SensorEvent)
    (tsResult kvResult : Except String Unit) :
    (∀ e, tsResult = .error e →
      SaveMeasurement st ev tsResult kvResult =
        (.error ("chyba insertu do PG: " ++ e), st))
    ∧ (∀ e, tsResult = .ok () → kvResult = .error e →
      SaveMeasurement st ev tsResult kvResult =
        (.error ("chyba update Valkey: " ++ e),
         ⟨st.tsRows ++ [(ev.Timestamp, ev.SensorID, ev.Value)], st.kv⟩))
    ∧ (tsResult = .ok () → kvResult = .ok () →
      SaveMeasurement st ev tsResult kvResult =
        (.ok (), ⟨st.tsRows ++ [(ev.Timestamp, ev.SensorID, ev.Value)],
          kvSet st.kv (lastKey ev.SensorID) ev.Value lease24h⟩)) := by
  refine ⟨?_, ?_, ?_⟩
  · intro e he
    subst he
    rfl
  · intro e hts hkv
    subst hts
    subst hkv
    rfl
  · intro hts hkv
    subst hts
    subst hkv
    rfl

/-- Witness for C5: a fully successful dual write appends the row and
overwrites the last-value key with a 24-hour lease. -/
theorem C5_dual_write_witness :
    SaveMeasurement ⟨[], []⟩ ⟨5, .num (mkRat 43 2), 1000⟩ (.ok ()) (.ok ()) =
      (.ok (), ⟨[(1000, 5, .num (mkRat 43 2))],
        [("sensor:last:5", .num (mkRat 43 2), lease24h)]⟩) := by
  have h := (C5_dual_write ⟨[], []⟩ ⟨5, .num (mkRat 43 2), 1000⟩
    (.ok ()) (.ok ())).2.2 rfl rfl
  simpa [kvSet, lastKey] using h

/-! ## Ingestor metadata refresh: `LoadSensors`
(`src/services/sensor-ingestor/metadata.go`). -/

/-- One row of the refresh query; `none` models a row whose `Scan`
failed, which the loop skips with `continue`. -/
abbrev MetaRow := Option (String × SensorMetadata)

/-- The fresh map built off to the side before the swap (`newCache`). -/
def buildCache (rows : List MetaRow) : MetaCache :=
  rows.foldl
    (fun c r =>
      match r with
      | none => c
      | some (t, m) => cacheInsert c t m)
    []

/-- Embedding of `MetadataService.LoadSensors`: if the query fails the
function returns the error with the published cache untouched; otherwise
it builds `newCache` from the rows and swaps it in as a whole. The
returned pair is (Go error return, published cache after the call). -/
def LoadSensors (cache : MetaCache)
    (queryResult : Except String (List MetaRow)) :
    Except String Unit × MetaCache :=
  match queryResult with
  | .error e => (.error ("SQL query failed: " ++ e), cache)
  | .ok rows => (.ok (), buildCache rows)

/-- C6: metadata refresh is atomic with respect to failure — when the
query errors, the published mapping is exactly the pre-refresh mapping;
when it succeeds, the published mapping is the freshly built map as a
whole, independent of the previous mapping (a single swap, not an
entry-by-entry mutation). -/
theorem C6_refresh_atomic (cache : MetaCache)
    (q : Except String (List MetaRow)) :
    (∀ e, q = .error e →
      LoadSensors cache q = (.error ("SQL query failed: " ++ e), cache))
    ∧ (∀ rows, q = .ok rows →
      (LoadSensors cache q).2 = buildCache rows
      ∧ ∀ cache2, (LoadSensors cache2 q).2 = (LoadSensors cache q).2) := by
  constructor
  · intro e he
    subst he
    rfl
  · intro rows hr
    subst hr
    exact ⟨rfl, fun cache2 => rfl⟩

/-- Witness for C6: a failing refresh leaves the previous mapping in
place and reports the error. -/
theorem C6_refresh_atomic_witness :
    LoadSensors [("old", ⟨1, none, none⟩)] (.error "conn refused") =
      (.error ("SQL query failed: " ++ "conn refused"),
       [("old", ⟨1, none, none⟩)]) :=
  (C6_refresh_atomic [("old", ⟨1, none, none⟩)]
    (.error "conn refused")).1 "conn refused" rfl

/-! ## Read API: `GetAllSensors` and the `current_value` field
(`src/services/home-api/service.go` lines 27-71, `types.go`). -/

/-- Outcome of the per-row `redis.Get`: a value, a key miss
(`redis.Nil`), or a transport error. -/
inductive RedisReply where
  | found (s : String)
  | nilReply
  | connErr (e : String)
deriving DecidableEq, Repr

/-- One row of the sensors-with-types join. -/
structure SensorRowDB where
  id : Int
  topic : String
  name : String
  typeName : String
  unit : String
deriving DecidableEq, Repr

/-- `SensorDTO`: `CurrentValue` is a nullable pointer (`*float64`),
modelled as an `Option`. -/
structure SensorDTO where
  id : Int
  topic : String
  name : String
  typeName : String
  unit : String
  currentValue : Option GoFloat
deriving DecidableEq, Repr

/-- The per-row enrichment step of `GetAllSensors`: on a successful Get
the string is parsed (`val, _ := strconv.ParseFloat` — a parse failure
yields Go's zero value) and attached; on a key miss or a transport error
`CurrentValue` stays nil. -/
def enrichRow (row : SensorRowDB) (reply : RedisReply) : SensorDTO :=
  match reply with
  | .found s =>
    ⟨row.id, row.topic, row.name, row.typeName, row.unit,
     some ((parseFloat s).getD (.num 0))⟩
  | .nilReply =>
    ⟨row.id, row.topic, row.name, row.typeName, row.unit, none⟩
  | .connErr _ =>
    ⟨row.id, row.topic, row.name, row.typeName, row.unit, none⟩

/-- `GetAllSensors` over the join result, with each row's key-value
lookup outcome supplied alongside it. -/
def GetAllSensors (rows : List (SensorRowDB × RedisReply)) :
    List SensorDTO :=
  rows.map (fun p => enrichRow p.1 p.2)

/-- JSON projection of the `current_value` field: `encoding/json`
serializes a nil `*float64` as `null` and a non-nil one as a number. -/
inductive JsonValue where
  | null
  | jnum (v : GoFloat)
deriving DecidableEq, Repr

/-- Serialization of `CurrentValue` (no `omitempty`, so the field is
always emitted: `null` or a number). -/
def currentValueJson : Option GoFloat → JsonValue
  | none => .null
  | some v => .jnum v

/-- C7: a key miss leaves `current_value` unset and it serializes as the
explicit `null`, which differs from the serialization of a cached value
of 0 — absence is distinguishable from zero. -/
theorem C7_miss_is_null (row : SensorRowDB)
    (rows : List (SensorRowDB × RedisReply)) :
    (enrichRow row .nilReply).currentValue = none
    ∧ currentValueJson (enrichRow row .nilReply).currentValue = .null
    ∧ currentValueJson (enrichRow row .nilReply).currentValue ≠
        currentValueJson (some (.num 0))
    ∧ (enrichRow row (.found "0")).currentValue = some (.num 0)
    ∧ GetAllSensors ((row, .nilReply) :: rows) =
        enrichRow row .nilReply :: GetAllSensors rows := by
  refine ⟨rfl, rfl, by simp [currentValueJson, enrichRow], ?_, rfl⟩
  show some ((parseFloat "0").getD (.num 0)) = some (.num 0)
  decide

/-- Witness for C7: a concrete sensor row with a key miss serializes its
current value as `null`. -/
theorem C7_miss_is_null_witness :
    (enrichRow ⟨3, "/msh/kitchen/temp", "Kitchen", "temperature", "C"⟩
        .nilReply).currentValue = none
    ∧ currentValueJson
        (enrichRow ⟨3, "/msh/kitchen/temp", "Kitchen", "temperature", "C"⟩
          .nilReply).currentValue = .null :=
  ⟨(C7_miss_is_null ⟨3, "/msh/kitchen/temp", "Kitchen", "temperature", "C"⟩ []).1,
   (C7_miss_is_null ⟨3, "/msh/kitchen/temp", "Kitchen", "temperature", "C"⟩ []).2.1⟩

/-! ## Time-series schema: the `sensor_data` table
(`src/unnamed/part_004`, the schema SQL). -/

/-- A row of `sensor_data(id SERIAL, time, sensor_id, value)`. -/
structure SensorDataRow where
  rid : Nat
  time : Int
  sensor_id : Int
  value : GoFloat
deriving DecidableEq, Repr

/-- The primary key declared by the DDL: `PRIMARY KEY(time, id)` — the
serial `id` column, not `sensor_id`. -/
def sensorDataPK (r : SensorDataRow) : Int × Nat := (r.time, r.rid)

/-- The `sensor_data` table with its serial sequence. -/
structure SensorDataTable where
  rows : List SensorDataRow
  nextId : Nat
deriving DecidableEq, Repr

/-- A fresh table: no rows, sequence at 1. -/
def emptySensorData : SensorDataTable := ⟨[], 1⟩

/-- The Persister's `INSERT INTO sensor_data (time, sensor_id, value)`:
the serial sequence assigns the `id`, and the insert is rejected only on
a duplicate of the declared primary key `(time, id)`. -/
def insertMeasurement (tbl : SensorDataTable) (time sid : Int)
    (v : GoFloat) : Except String SensorDataTable :=
  let r : SensorDataRow := ⟨tbl.nextId, time, sid, v⟩
  if tbl.rows.any (fun r2 => decide (sensorDataPK r2 = sensorDataPK r)) then
    .error "duplicate key value violates unique constraint"
  else .ok ⟨tbl.rows ++ [r], tbl.nextId + 1⟩

/-- C8 counterexample: inserting the same `(time, sensor_id, value)`
twice succeeds both times — the second, exactly duplicate row is NOT
rejected, because the declared primary key is `(time, id)` with `id` a
serial that differs on every insert. -/
theorem C8_counterexample :
    insertMeasurement emptySensorData 0 1 (.num 5) =
      .ok ⟨[⟨1, 0, 1, .num 5⟩], 2⟩
    ∧ insertMeasurement ⟨[⟨1, 0, 1, .num 5⟩], 2⟩ 0 1 (.num 5) =
      .ok ⟨[⟨1, 0, 1, .num 5⟩, ⟨2, 0, 1, .num 5⟩], 3⟩ := by decide

/-- C8 (amended): the primary key of `sensor_data` is `(time, id)` where
`id` is the auto-increment serial column; as long as the serial is fresh
(larger than every existing row's id), EVERY insert is accepted — same
timestamp with a different sensor, and also an exact duplicate of
`(time, sensor_id)` — and freshness is preserved. -/
theorem C8_pk_amended (tbl : SensorDataTable) (time sid : Int) (v : GoFloat)
    (hfresh : ∀ r ∈ tbl.rows, r.rid < tbl.nextId) :
    insertMeasurement tbl time sid v =
      .ok ⟨tbl.rows ++ [⟨tbl.nextId, time, sid, v⟩], tbl.nextId + 1⟩
    ∧ ∀ r ∈ tbl.rows ++ [⟨tbl.nextId, time, sid, v⟩],
        r.rid < tbl.nextId + 1 := by
  constructor
  · have hany : tbl.rows.any
        (fun r2 => decide (sensorDataPK r2 =
          sensorDataPK ⟨tbl.nextId, time, sid, v⟩)) = false := by
      rw [List.any_eq_false]
      intro r2 hr2
      have hlt := hfresh r2 hr2
      simp only [sensorDataPK, Prod.mk.injEq, decide_eq_true_eq, not_and]
      intro _
      omega
    simp [insertMeasurement, hany]
  · intro r hr
    rcases List.mem_append.mp hr with h | h
    · exact Nat.lt_succ_of_lt (hfresh r h)
    · simp only [List.mem_singleton] at h
      subst h
      exact Nat.lt_succ_self _
/-- Witness for C8 (amended): with a fresh serial, the exact duplicate of
an existing `(time, sensor_id)` pair is inserted successfully. -/
theorem C8_pk_amended_witness :
    insertMeasurement ⟨[⟨1, 0, 1, .num 5⟩], 2⟩ 0 1 (.num 5) =
      .ok ⟨[⟨1, 0, 1, .num 5⟩, ⟨2, 0, 1, .num 5⟩], 3⟩ :=
  (C8_pk_amended ⟨[⟨1, 0, 1, .num 5⟩], 2⟩ 0 1 (.num 5) (by decide)).1

/-! ## Log Collector (`src/services/log-collector/main.go`,
`config.go`). -/

/-- The output directory: a hardcoded constant in `main.go`
(`const LogDir = "/var/log/iot-app"`). -/
def LogDir : String := "/var/log/iot-app"

/-- `filepath.Join(LogDir, fmt.Sprintf("%s.log", serviceName))`. -/
def logFilePath (serviceName : String) : String :=
  LogDir ++ "/" ++ serviceName ++ ".log"

/-- `getEnv(key, fallback)` from `config.go`. -/
def getEnvStr (env : String → Option String) (key fallback : String) :
    String :=
  (env key).getD fallback

/-- The `LogDir` field of `LoadConfig()` in `config.go`: it WOULD read
`LOG_DIR` with default `/var/log/iot-app` — but `main.go` never calls
`LoadConfig`. -/
def collectorConfigLogDir (env : String → Option String) : String :=
  getEnvStr env "LOG_DIR" "/var/log/iot-app"

/-- The path the collector actually writes to for a service: `main.go`
uses the constant `LogDir`, so the environment is ignored. -/
def collectorTargetPath (_env : String → Option String)
    (serviceName : String) : String :=
  logFilePath serviceName

/-- The collector's file system, path to contents. -/
abbrev FileSystem := List (String × String)

/-- Contents of a file, empty when absent (`O_CREATE`). -/
def fsRead (fs : FileSystem) (path : String) : String :=
  (fs.lookup path).getD ""

/-- `appendLogToFile`: open-append-close, writing the payload and then a
newline. -/
def fsAppend (fs : FileSystem) (path data : String) : FileSystem :=
  (path, fsRead fs path ++ data) :: fs.filter (fun p => !(p.1 == path))

/-- `strings.Split(topic, "/")` for the one-character separator. -/
def splitSlash : List Char → List (List Char)
  | [] => [[]]
  | c :: rest =>
    let r := splitSlash rest
    if c = '/' then [] :: r
    else
      match r with
      | [] => [[c]]
      | h :: tl => (c :: h) :: tl

/-- The collector's message handler: split the topic on `/`; fewer than
two segments is a warning and the message is dropped; otherwise append
payload+newline to the target file of the service named by segment 1.
The environment is passed through to expose that it has no effect. -/
def handleLogMessage (env : String → Option String) (fs : FileSystem)
    (topic payload : String) : FileSystem :=
  let parts := splitSlash topic.toList
  if parts.length < 2 then fs
  else
    fsAppend fs (collectorTargetPath env (String.mk (parts.getD 1 [])))
      (payload ++ "\n")

/-- An environment that sets `LOG_DIR` to a custom directory. -/
def customEnv : String → Option String :=
  fun k => if k = "LOG_DIR" then some "/data/logs" else none

/-- C9 counterexample: with `LOG_DIR=/data/logs` in the environment, a
message for service `sensor-ingestor` is still appended under the
hardcoded `/var/log/iot-app`, not under `/data/logs` — even though
`LoadConfig` (which `main` never calls) would have picked the custom
directory up. -/
theorem C9_counterexample :
    collectorTargetPath customEnv "sensor-ingestor" =
      "/var/log/iot-app/sensor-ingestor.log"
    ∧ collectorTargetPath customEnv "sensor-ingestor" ≠
      "/data/logs/sensor-ingestor.log"
    ∧ collectorConfigLogDir customEnv = "/data/logs"
    ∧ handleLogMessage customEnv [] "logs/sensor-ingestor/info" "hello" =
      [("/var/log/iot-app/sensor-ingestor.log", "hello\n")] := by decide

/-- C9 (amended): the Log Collector's output directory is the hardcoded
constant `/var/log/iot-app`, regardless of the environment: every
received log message on a topic with at least two segments is appended
to `<LogDir>/<service>.log` where `service` is the topic's second
segment; `LOG_DIR` is only read by the unused `LoadConfig`, whose
default matches the constant. -/
theorem C9_logdir_amended (env : String → Option String) (fs : FileSystem)
    (topic payload : String) (p0 svc : String) (rest : List (List Char))
    (hsplit : splitSlash topic.toList = p0.toList :: svc.toList :: rest) :
    handleLogMessage env fs topic payload =
      fsAppend fs (LogDir ++ "/" ++ svc ++ ".log") (payload ++ "\n")
    ∧ LogDir = "/var/log/iot-app"
    ∧ (env "LOG_DIR" = none →
        collectorConfigLogDir env = "/var/log/iot-app") := by
  refine ⟨?_, rfl, ?_⟩
  · simp only [handleLogMessage, hsplit, List.length_cons, Nat.lt_irrefl,
      List.getD_cons_succ, List.getD_cons_zero, collectorTargetPath,
      logFilePath]
    have hlen : ¬ (rest.length + 1 + 1 < 2) := by omega
    rw [if_neg hlen]
    have hmk : String.mk svc.toList = svc := rfl
    rw [hmk]
  · intro h
    simp [collectorConfigLogDir, getEnvStr, h]

/-- Witness for C9 (amended): a message on `logs/persister/err` lands in
`/var/log/iot-app/persister.log`. -/
theorem C9_logdir_amended_witness :
    handleLogMessage customEnv [] "logs/persister/err" "oops" =
      fsAppend [] (LogDir ++ "/" ++ "persister" ++ ".log") ("oops" ++ "\n") :=
  (C9_logdir_amended customEnv [] "logs/persister/err" "oops" "logs"
    "persister" ["err".toList] (by decide)).1

end Dashboarder
